import Mathlib

/-!
Shallow embedding of `extract_wikipedia_f1_grand_prix_race_summaries_by_year.py`.

HTML documents parsed by BeautifulSoup are modelled as a tree of nodes: a node
is either a bare text node (`NavigableString`) or an element (`Tag`) with tag
name, an optional multi-valued `class` attribute (BeautifulSoup represents the
`class` attribute as a list of whitespace-split tokens, present even when
empty), a list of other string-valued attributes, and an ordered child list.
-/

namespace F1Scraper

inductive Node where
  | text (s : String)
  | elem (tag : String) (classAttr : Option (List String)) (attrs : List (String × String)) (children : List Node)

mutual
def decEqNode : (a b : Node) → Decidable (a = b)
  | .text s1, .text s2 =>
    if h : s1 = s2 then .isTrue (by rw [h]) else .isFalse (by simp [h])
  | .text _, .elem _ _ _ _ => .isFalse (fun h => Node.noConfusion h)
  | .elem _ _ _ _, .text _ => .isFalse (fun h => Node.noConfusion h)
  | .elem t1 c1 a1 ch1, .elem t2 c2 a2 ch2 =>
    match decEqListNode ch1 ch2 with
    | .isTrue hch =>
      if h : t1 = t2 ∧ c1 = c2 ∧ a1 = a2 then
        .isTrue (by rw [h.1, h.2.1, h.2.2, hch])
      else .isFalse (by intro he; injection he with h1 h2 h3 _; exact h ⟨h1, h2, h3⟩)
    | .isFalse hch => .isFalse (by intro he; injection he with _ _ _ h4; exact hch h4)

def decEqListNode : (a b : List Node) → Decidable (a = b)
  | [], [] => .isTrue rfl
  | [], _ :: _ => .isFalse (by simp)
  | _ :: _, [] => .isFalse (by simp)
  | x :: xs, y :: ys =>
    match decEqNode x y with
    | .isTrue h1 =>
      match decEqListNode xs ys with
      | .isTrue h2 => .isTrue (by rw [h1, h2])
      | .isFalse h2 => .isFalse (by intro he; injection he with _ he2; exact h2 he2)
    | .isFalse h1 => .isFalse (by intro he; injection he with he1 _; exact h1 he1)
end

instance : DecidableEq Node := decEqNode

def Node.tagName : Node → Option String
  | .text _ => none
  | .elem t _ _ _ => some t

def Node.classAttrOf : Node → Option (List String)
  | .text _ => none
  | .elem _ cls _ _ => cls

def Node.childrenOf : Node → List Node
  | .text _ => []
  | .elem _ _ _ ch => ch

/-- `tag.get(key)` for a non-class attribute: first binding of the key. -/
def Node.getAttr (n : Node) (k : String) : Option String :=
  match n with
  | .text _ => none
  | .elem _ _ attrs _ => attrs.lookup k

def Node.isElem : Node → Bool
  | .text _ => false
  | .elem _ _ _ _ => true

/-- Python whitespace (the ASCII characters stripped by `str.strip()`). -/
def pyIsSpace (c : Char) : Bool :=
  c == ' ' || c == '\t' || c == '\n' || c == '\r' || c == Char.ofNat 11 || c == Char.ofNat 12

def pyStripChars (l : List Char) : List Char :=
  ((l.dropWhile pyIsSpace).reverse.dropWhile pyIsSpace).reverse

/-- Model of Python `str.strip()`. -/
def pyStrip (s : String) : String := ⟨pyStripChars s.data⟩

/-- Model of Python `sep.join(parts)`. -/
def pyJoin (sep : String) : List String → String
  | [] => ""
  | [x] => x
  | x :: y :: rest => x ++ sep ++ pyJoin sep (y :: rest)

/-- Serialization of the attributes for `str(tag)`. -/
def renderAttrs (cls : Option (List String)) (attrs : List (String × String)) : String :=
  (match cls with
   | none => ""
   | some toks => " class=\"" ++ pyJoin " " toks ++ "\"") ++
  String.join (attrs.map (fun kv => " " ++ kv.1 ++ "=\"" ++ kv.2 ++ "\""))

mutual
/-- Model of `str(node)`: render a node back to markup. -/
def render : Node → String
  | .text s => s
  | .elem t cls attrs ch => "<" ++ t ++ renderAttrs cls attrs ++ ">" ++ renderList ch ++ "</" ++ t ++ ">"

def renderList : List Node → String
  | [] => ""
  | n :: rest => render n ++ renderList rest
end

mutual
/-- The descendant `NavigableString`s of a node, in document order. -/
def nodeTexts : Node → List String
  | .text s => [s]
  | .elem _ _ _ ch => listTexts ch

def listTexts : List Node → List String
  | [] => []
  | n :: rest => nodeTexts n ++ listTexts rest
end

/-- Model of `tag.get_text(" ", strip=True)`: strip every descendant string,
drop the ones that become empty, join the rest with single spaces. -/
def getTextSpaceStrip (n : Node) : String :=
  pyJoin " " (((nodeTexts n).map pyStrip).filter (fun s => !s.isEmpty))

/-- Model of `tag.get_text()` (no separator, no stripping). -/
def getTextRaw (n : Node) : String :=
  String.join (nodeTexts n)

mutual
/-- All descendants of a node in document (preorder) order, the node itself
excluded — the traversal order of `soup.find_all` / `soup.select`. -/
def nodeDescendants : Node → List Node
  | .text _ => []
  | .elem _ _ _ ch => listDescendants ch

def listDescendants : List Node → List Node
  | [] => []
  | n :: rest => n :: (nodeDescendants n ++ listDescendants rest)
end

/-! ## Heading classifier (`_is_heading_div`, `_level_of_heading_div`, `_heading_text_from_div`) -/

def H2_DIV_CLASS : String := "mw-heading mw-heading2"

def H3_DIV_CLASS : String := "mw-heading mw-heading3"

/-- `" ".join(tag.get("class", []))`. -/
def joinedClasses (n : Node) : String :=
  pyJoin " " (n.classAttrOf.getD [])

/-- `_is_heading_div`: a `div` whose whitespace-joined class string equals one of
the two heading-container signatures. -/
def is_heading_div (n : Node) : Bool :=
  n.tagName == some "div" && (joinedClasses n == H2_DIV_CLASS || joinedClasses n == H3_DIV_CLASS)

/-- `_level_of_heading_div`. -/
def level_of_heading_div (n : Node) : Option Nat :=
  if joinedClasses n == H2_DIV_CLASS then some 2
  else if joinedClasses n == H3_DIV_CLASS then some 3
  else none

/-- `_heading_text_from_div`: text of the first direct `h2`/`h3` child, falling
back to the container's own text. -/
def heading_text_from_div (n : Node) : String :=
  match n.childrenOf.find? (fun c => c.tagName == some "h2" || c.tagName == some "h3") with
  | some h => getTextSpaceStrip h
  | none => getTextSpaceStrip n

/-! ## Lead-section extractor (`extract_opening_paragraphs`) -/

/-- Python truthiness of `tag.get("class")`: falsy when the attribute is absent
(`None`) or present with an empty token list (`[]`). -/
def pyFalsyClass : Option (List String) → Bool
  | none => true
  | some [] => true
  | some (_ :: _) => false

/-- The stop condition of the lead scan:
`child.name == "div" and "class" in child.attrs and " ".join(...) == H2_DIV_CLASS`. -/
def isLeadStopDiv (n : Node) : Bool :=
  n.tagName == some "div" && n.classAttrOf.isSome && joinedClasses n == H2_DIV_CLASS

/-- The child loop of `extract_opening_paragraphs`: returns the collected
paragraph markup strings, the paragraph count and the stop node. -/
def extract_opening_paragraphs_aux : List Node → List String × Nat × Option Node
  | [] => ([], 0, none)
  | .text _ :: rest => extract_opening_paragraphs_aux rest
  | .elem t cls attrs ch :: rest =>
    if isLeadStopDiv (.elem t cls attrs ch) then ([], 0, some (.elem t cls attrs ch))
    else if t == "p" && pyFalsyClass cls then
      let r := extract_opening_paragraphs_aux rest
      (render (.elem t cls attrs ch) :: r.1, r.2.1 + 1, r.2.2)
    else extract_opening_paragraphs_aux rest

/-- `extract_opening_paragraphs(main_div)`:
`("\n\n".join(parts), p_count, stop_node)`. -/
def extract_opening_paragraphs (main_div : Node) : String × Nat × Option Node :=
  let r := extract_opening_paragraphs_aux main_div.childrenOf
  (pyJoin "\n\n" r.1, r.2.1, r.2.2)

/-! ## Section-by-title extractor (`extract_race_section_after`) -/

/-- ASCII lower-casing, the case folding relevant to the letters of `Race`. -/
def asciiLower (c : Char) : Char :=
  if 'A' ≤ c && c ≤ 'Z' then Char.ofNat (c.toNat + 32) else c

def noNewlines (l : List Char) : Bool := l.all (fun c => c ≠ '\n')

/-- What `.*$` (no MULTILINE, no DOTALL) accepts after the literal: the rest of
the string contains no newline, except possibly a single trailing one. -/
def dotStarEnd (l : List Char) : Bool :=
  noNewlines l || (l.getLast? == some '\n' && noNewlines l.dropLast)

/-- `re.match(r"^Race.*$", txt, re.IGNORECASE)` as a Boolean. -/
def matchesRace (txt : String) : Bool :=
  match txt.data with
  | c1 :: c2 :: c3 :: c4 :: rest =>
    asciiLower c1 == 'r' && asciiLower c2 == 'a' && asciiLower c3 == 'c' &&
      asciiLower c4 == 'e' && dotStarEnd rest
  | _ => false

/-- The element children of the main region that the race-section scan walks,
starting right after `start_after` when that node is found in the list
(`children.index(start_after) + 1`), and at the beginning otherwise. -/
def raceScanChildren (main_div : Node) (start_after : Option Node) : List Node :=
  let children := main_div.childrenOf.filter Node.isElem
  match start_after with
  | none => children
  | some t =>
    match children.findIdx? (fun c => c == t) with
    | some i => children.drop (i + 1)
    | none => children

/-- The first-`Race`-heading search loop: the matched heading together with the
children that follow it. -/
def findRaceHeading : List Node → Option (Node × List Node)
  | [] => none
  | n :: rest =>
    if is_heading_div n && matchesRace (heading_text_from_div n) then some (n, rest)
    else findRaceHeading rest

/-- The capture loop: collect nodes until the next heading div of the fence
level, counting the captured `p` tags. -/
def captureLoop (lvl : Nat) : List Node → List String × Nat
  | [] => ([], 0)
  | n :: rest =>
    if is_heading_div n && level_of_heading_div n == some lvl then ([], 0)
    else
      let r := captureLoop lvl rest
      (render n :: r.1, if n.tagName == some "p" then r.2 + 1 else r.2)

/-- `extract_race_section_after(main_div, start_after)`. -/
def extract_race_section_after (main_div : Node) (start_after : Option Node) : String × Nat :=
  match findRaceHeading (raceScanChildren main_div start_after) with
  | none => ("", 0)
  | some (h, rest) =>
    match level_of_heading_div h with
    | none => ("", 0)
    | some lvl =>
      let r := captureLoop lvl rest
      (pyJoin "\n\n" r.1, r.2)

/-! ## Date extraction (`extract_iso_date`) -/

def isAsciiDigit (c : Char) : Bool := '0' ≤ c && c ≤ '9'

/-- `re.match(r"^\d{4}-\d{2}-\d{2}$", s)`: exactly `YYYY-MM-DD`, a single
trailing newline tolerated by `$`. -/
def isoRe (s : String) : Bool :=
  match s.data with
  | [a, b, c, d, '-', e, f, '-', g, h] =>
    [a, b, c, d, e, f, g, h].all isAsciiDigit
  | [a, b, c, d, '-', e, f, '-', g, h, '\n'] =>
    [a, b, c, d, e, f, g, h].all isAsciiDigit
  | _ => false

/-- The elements scanned by `soup.find_all(["time", "span"], attrs=True)`:
BeautifulSoup turns a non-dict `attrs` into a `class` filter, so this matches
`time`/`span` tags that carry a `class` attribute (of any value). -/
def pass1Filter (n : Node) : Bool :=
  (n.tagName == some "time" || n.tagName == some "span") && n.classAttrOf.isSome

def firstDatetimeMatch : List Node → Option String
  | [] => none
  | n :: rest =>
    match n.getAttr "datetime" with
    | some dt => if !dt.isEmpty && isoRe dt then some dt else firstDatetimeMatch rest
    | none => firstDatetimeMatch rest

/-- The elements scanned by `soup.find_all(attrs={"title": True})`: tags that
carry a `title` attribute. -/
def pass2Filter (n : Node) : Bool :=
  n.isElem && (n.getAttr "title").isSome

def firstTitleMatch : List Node → Option String
  | [] => none
  | n :: rest =>
    if isoRe ((n.getAttr "title").getD "") then some ((n.getAttr "title").getD "")
    else firstTitleMatch rest

/-- `extract_iso_date(soup)`. -/
def extract_iso_date (doc : Node) : Option String :=
  match firstDatetimeMatch ((nodeDescendants doc).filter pass1Filter) with
  | some dt => some dt
  | none => firstTitleMatch ((nodeDescendants doc).filter pass2Filter)

/-! ## Pretty date (`datetime.strptime(iso, "%Y-%m-%d").strftime("%B %-d, %Y")`) -/

def monthName : Nat → String
  | 1 => "January"
  | 2 => "February"
  | 3 => "March"
  | 4 => "April"
  | 5 => "May"
  | 6 => "June"
  | 7 => "July"
  | 8 => "August"
  | 9 => "September"
  | 10 => "October"
  | 11 => "November"
  | 12 => "December"
  | _ => ""

def isLeapYear (y : Nat) : Bool := (y % 4 == 0 && y % 100 != 0) || y % 400 == 0

def daysInMonth (y m : Nat) : Nat :=
  if m == 2 then (if isLeapYear y then 29 else 28)
  else if m == 4 || m == 6 || m == 9 || m == 11 then 30
  else 31

def digitVal (c : Char) : Nat := c.toNat - 48

/-- `datetime.strptime(s, "%Y-%m-%d")`: strict `YYYY-MM-DD` syntax (trailing
characters are "unconverted data" and raise) plus calendar validity, modelled
as an `Option` in place of the raised `ValueError`. -/
def parseIsoDate (s : String) : Option (Nat × Nat × Nat) :=
  match s.data with
  | [y1, y2, y3, y4, '-', m1, m2, '-', d1, d2] =>
    if [y1, y2, y3, y4, m1, m2, d1, d2].all isAsciiDigit then
      let y := digitVal y1 * 1000 + digitVal y2 * 100 + digitVal y3 * 10 + digitVal y4
      let m := digitVal m1 * 10 + digitVal m2
      let d := digitVal d1 * 10 + digitVal d2
      if 1 ≤ y && 1 ≤ m && m ≤ 12 && 1 ≤ d && d ≤ daysInMonth y m then some (y, m, d)
      else none
    else none
  | _ => none

/-- The `try`/`except` pretty-date conversion: `"%B %-d, %Y"` (full month name,
day without leading zero, year) on success, `None` on any parse failure. -/
def prettyDate (iso : String) : Option String :=
  (parseIsoDate iso).map
    (fun ymd => monthName ymd.2.1 ++ " " ++ Nat.repr ymd.2.2 ++ ", " ++ Nat.repr ymd.1)

/-! ## Page summary assembly (`extract_page_summary`, `find_main_content_div`) -/

/-- CSS selector `div.mw-content-ltr.mw-parser-output`: a `div` whose class
token list contains both tokens. -/
def isMainContentDiv (n : Node) : Bool :=
  n.tagName == some "div" &&
    (n.classAttrOf.getD []).contains "mw-content-ltr" &&
    (n.classAttrOf.getD []).contains "mw-parser-output"

/-- `soup.select_one(CONTENT_DIV_SELECTOR)`: first match in document order. -/
def find_main_content_div (doc : Node) : Option Node :=
  (nodeDescendants doc).find? isMainContentDiv

/-- Python truthiness of `main_div` in `if not main_div:`. A `Tag` has
`__len__ = len(contents)`, so a childless element is falsy; absence is falsy. -/
def pyFalsyMainDiv : Option Node → Bool
  | none => true
  | some (.text s) => s.isEmpty
  | some (.elem _ _ _ ch) => ch.isEmpty

structure PageSummary where
  date : Option String
  race_summary : String
deriving DecidableEq, Repr

/-- `extract_page_summary(html)` (with the document standing in for the parsed
`html` string). -/
def extract_page_summary (doc : Node) : PageSummary :=
  let mainOpt := find_main_content_div doc
  if pyFalsyMainDiv mainOpt then { date := none, race_summary := "" }
  else
    match mainOpt with
    | none => { date := none, race_summary := "" }
    | some main_div =>
      let lead := extract_opening_paragraphs main_div
      let race := extract_race_section_after main_div lead.2.2
      let combined_parts :=
        (if !(pyStrip lead.1).isEmpty then [pyStrip lead.1] else []) ++
        (if !(pyStrip race.1).isEmpty then [pyStrip race.1] else [])
      let combined := pyJoin "\n\n" combined_parts
      let iso := extract_iso_date doc
      let pretty := match iso with
        | none => none
        | some s => prettyDate s
      { date := pretty, race_summary := combined }

/-! ## Category link discovery (`parse_year_links_from_category`) -/

/-- Python `\w` restricted to ASCII: the word characters relevant to `\b`. -/
def isWordChar (c : Char) : Bool := c.isAlphanum || c == '_'

/-- Attempt of `YEAR_RE` = `\b(19|20)\d{2}\b` at the current position (`prev`
is the character just before the position, if any). -/
def tryYearAt (prev : Option Char) : List Char → Option Nat
  | c1 :: c2 :: c3 :: c4 :: rest =>
    if prev.all (fun p => !isWordChar p) &&
       ((c1 == '1' && c2 == '9') || (c1 == '2' && c2 == '0')) &&
       isAsciiDigit c3 && isAsciiDigit c4 &&
       rest.head?.all (fun p => !isWordChar p) then
      some (digitVal c1 * 1000 + digitVal c2 * 100 + digitVal c3 * 10 + digitVal c4)
    else none
  | _ => none

/-- `YEAR_RE.search(text)`: leftmost match. -/
def findYearFrom (prev : Option Char) : List Char → Option Nat
  | [] => none
  | c :: rest =>
    match tryYearAt prev (c :: rest) with
    | some y => some y
    | none => findYearFrom (some c) rest

/-- Substring test, Python's `needle in hay`. -/
def containsSub (hay needle : List Char) : Bool :=
  if needle.isPrefixOf hay then true
  else
    match hay with
    | [] => false
    | _ :: rest => containsSub rest needle

def strContains (hay needle : String) : Bool := containsSub hay.data needle.data

def strStartsWith (s pre : String) : Bool := pre.data.isPrefixOf s.data

/-- The anchors walked by `soup.select("a[href^='/wiki/']")`. -/
def anchorFilter (n : Node) : Bool :=
  n.tagName == some "a" && (n.getAttr "href").any (fun h => strStartsWith h "/wiki/")

/-- The body of the category loop: the `(year, absolute url)` this anchor
contributes, or `none` when one of the `continue` filters fires. -/
def anchorYearLink (a : Node) : Option (Nat × String) :=
  let text := pyStrip (getTextRaw a)
  let href := (a.getAttr "href").getD ""
  if text.isEmpty || href.isEmpty then none
  else
    match findYearFrom none text.data with
    | none => none
    | some year =>
      if !strContains text "Grand Prix" && !strContains href "Grand_Prix" then none
      else if strStartsWith href "/wiki/Talk:" || strStartsWith href "/wiki/Category:" ||
              strStartsWith href "/wiki/File:" || strStartsWith href "/wiki/Help:" then none
      else some (year, "https://en.wikipedia.org" ++ href)

/-- `year in links` on the insertion-ordered dict modelled as an association
list. -/
def hasYear (links : List (Nat × String)) (y : Nat) : Bool :=
  links.any (fun p => p.1 == y)

/-- `links.setdefault(year, url)` on an insertion-ordered dict modelled as an
association list. -/
def setdefault (links : List (Nat × String)) (y : Nat) (u : String) : List (Nat × String) :=
  if hasYear links y then links else links ++ [(y, u)]

/-- The anchor loop of `parse_year_links_from_category`. -/
def buildLinks : List Node → List (Nat × String) → List (Nat × String)
  | [], acc => acc
  | a :: rest, acc =>
    match anchorYearLink a with
    | none => buildLinks rest acc
    | some yu => buildLinks rest (setdefault acc yu.1 yu.2)

def sortedInsert (p : Nat × String) : List (Nat × String) → List (Nat × String)
  | [] => [p]
  | q :: rest => if p.1 ≤ q.1 then p :: q :: rest else q :: sortedInsert p rest

/-- `{k: links[k] for k in sorted(links.keys())}` as an insertion sort on the
association list. -/
def sortByYear : List (Nat × String) → List (Nat × String)
  | [] => []
  | p :: rest => sortedInsert p (sortByYear rest)

/-- `parse_year_links_from_category(html)` (on the parsed document). -/
def parse_year_links_from_category (doc : Node) : List (Nat × String) :=
  sortByYear (buildLinks ((nodeDescendants doc).filter anchorFilter) [])

/-! ## Orchestrator year filtering (`main`, lines 397-404) -/

/-- The future-year / current-year filter loop of `main`, on the ordered
year-link mapping. -/
def filterYears (nowYear : Nat) (excludeCurrent : Bool)
    (yearLinks : List (Nat × String)) : List (Nat × String) :=
  yearLinks.filter (fun p =>
    if p.1 > nowYear then false
    else if excludeCurrent && p.1 == nowYear then false
    else true)

/-! ## Spec-side definitions (formalizations of the specification's wording,
kept separate from the source embedding so the two can be compared) -/

/-- Heading-boundary classifier at level 2 in the specification's terms. -/
def isH2Boundary (n : Node) : Bool :=
  is_heading_div n && level_of_heading_div n == some 2

/-- "text matching the literal prefix `Race` case-insensitively anchored at the
start" — the hypothesis wording of the no-match claim. -/
def racePrefCI (txt : String) : Bool :=
  match txt.data with
  | c1 :: c2 :: c3 :: c4 :: _ =>
    asciiLower c1 == 'r' && asciiLower c2 == 'a' && asciiLower c3 == 'c' && asciiLower c4 == 'e'
  | _ => false

/-- The spec's `race_summary` invariant: lead and race fragments joined by a
blank-line separator, empty parts omitted. -/
def specCombine (a b : String) : String :=
  pyJoin "\n\n" ((if a.isEmpty then [] else [a]) ++ (if b.isEmpty then [] else [b]))

/-- The lead fragment a document yields (empty when there is no main region). -/
def leadFragOf (doc : Node) : String :=
  match find_main_content_div doc with
  | none => ""
  | some m => (extract_opening_paragraphs m).1

/-- The race-section fragment a document yields. -/
def raceFragOf (doc : Node) : String :=
  match find_main_content_div doc with
  | none => ""
  | some m => (extract_race_section_after m (extract_opening_paragraphs m).2.2).1

/-- The lead fragment as the original claim words it: exactly the
paragraph-tag children with **no** class attribute before the first level-2
boundary, serialized in order. -/
def claimC2Lead (main_div : Node) : String :=
  pyJoin "\n\n"
    (((main_div.childrenOf.takeWhile (fun n => !isH2Boundary n)).filter
        (fun n => n.tagName == some "p" && n.classAttrOf == none)).map render)

/-- Date extraction as the original claim words it: any element carrying a
matching `datetime` attribute (first in document order), else any element
carrying a matching `title` attribute. -/
def claimIsoDate (doc : Node) : Option String :=
  match ((nodeDescendants doc).filterMap
          (fun n => (n.getAttr "datetime").bind
            (fun v => if isoRe v then some v else none))).head? with
  | some v => some v
  | none =>
    ((nodeDescendants doc).filterMap
      (fun n => (n.getAttr "title").bind
        (fun v => if isoRe v then some v else none))).head?

/-- Date extraction as amended: pass 1 only looks at `time`/`span` elements
that carry a `class` attribute, pass 2 at elements carrying a `title`
attribute; each pass takes its first match in document order. -/
def amendedIsoDate (doc : Node) : Option String :=
  match (((nodeDescendants doc).filter pass1Filter).filterMap
          (fun n => match n.getAttr "datetime" with
                    | some dt => if !dt.isEmpty && isoRe dt then some dt else none
                    | none => none)).head? with
  | some dt => some dt
  | none =>
    (((nodeDescendants doc).filter pass2Filter).filterMap
      (fun n => if isoRe ((n.getAttr "title").getD "")
                then some ((n.getAttr "title").getD "") else none)).head?

/-- The shape every extractor fragment has: empty, or markup beginning with
`<` and ending with `>` (so that Python's `.strip()` leaves it unchanged). -/
def goodFrag (s : String) : Prop :=
  s = "" ∨ (s.data.head? = some '<' ∧ s.data.getLast? = some '>')

/-- The `setdefault` loop over an already-extracted list of `(year, url)`
contributions. -/
def linkFold : List (Nat × String) → List (Nat × String) → List (Nat × String)
  | [], acc => acc
  | p :: rest, acc => linkFold rest (setdefault acc p.1 p.2)

/-! ## Example documents used to instantiate the theorems -/

/-- A level-2 heading container with the given heading text. -/
def mkH2 (txt : String) : Node :=
  .elem "div" (some ["mw-heading", "mw-heading2"]) [] [.elem "h2" none [] [.text txt]]

/-- A level-3 heading container with the given heading text. -/
def mkH3 (txt : String) : Node :=
  .elem "div" (some ["mw-heading", "mw-heading3"]) [] [.elem "h3" none [] [.text txt]]

def mkP (txt : String) : Node := .elem "p" none [] [.text txt]

def exC1Main : Node :=
  .elem "div" (some ["mw-content-ltr", "mw-parser-output"]) []
    [mkP "Lead.", mkH2 "Background", mkP "Context.", mkH2 "Race",
     mkP "First racing paragraph.", mkH3 "Start", mkP "Start details.",
     mkH2 "Reactions", mkP "After."]

def exC2Main : Node :=
  .elem "div" (some ["mw-content-ltr", "mw-parser-output"]) []
    [.elem "p" (some []) [] [.text "Hi"], mkH2 "Background", mkP "After."]

def exC3Main : Node :=
  .elem "div" (some ["mw-content-ltr", "mw-parser-output"]) []
    [mkP "Lead.", mkH2 "Background", mkP "Body.", mkH2 "Reactions"]

def exC3Doc : Node :=
  .elem "html" none [] [.elem "body" none [] [exC3Main]]

def exC5Doc : Node :=
  .elem "html" none []
    [.elem "body" none []
      [.elem "time" none [("datetime", "2015-11-01")] [.text "1 November 2015"]]]

def exC6Doc : Node :=
  .elem "html" none []
    [.elem "body" none []
      [.elem "div" (some ["mw-content-ltr", "mw-parser-output"]) []
        [mkP "Lead.",
         .elem "span" (some ["bday"]) [("datetime", "2015-11-01")] [.text "1 November 2015"]]]]

def mkAnchor (txt href : String) : Node :=
  .elem "a" none [("href", href)] [.text txt]

def exC7Doc : Node :=
  .elem "html" none []
    [mkAnchor "2014 Mexican Grand Prix" "/wiki/2014_Mexican_Grand_Prix",
     mkAnchor "2014 Mexican Grand Prix (alt)" "/wiki/2014_Mexican_Grand_Prix_(alt)",
     mkAnchor "Talk:2014 Mexican Grand Prix" "/wiki/Talk:2014_Mexican_Grand_Prix",
     mkAnchor "2010 Mexican Grand Prix" "/wiki/2010_Mexican_Grand_Prix"]

def exC9Doc : Node :=
  .elem "html" none [] [.elem "body" none [] [.elem "div" (some ["other"]) [] [.text "no main"]]]

/-! # Theorems -/

lemma isLeadStopDiv_p (cls : Option (List String)) (a : List (String × String)) (ch : List Node) :
    isLeadStopDiv (.elem "p" cls a ch) = false := by
  simp [isLeadStopDiv, Node.tagName]

/-- Claim C9: for every input document in which the main content region
selector finds no container, `extract_page_summary` returns a record with a
null date and an empty `race_summary`; being a total function of the document,
it raises nothing — this failure is per-page and non-fatal. -/
theorem c9_missing_main_region (doc : Node) (h : find_main_content_div doc = none) :
    extract_page_summary doc = { date := none, race_summary := "" } := by
  simp [extract_page_summary, h, pyFalsyMainDiv]

/-- Claim C9, witness: a concrete document without the main-region container. -/
theorem c9_missing_main_region_witness :
    find_main_content_div exC9Doc = none ∧
      extract_page_summary exC9Doc = { date := none, race_summary := "" } :=
  ⟨rfl, c9_missing_main_region exC9Doc rfl⟩

/-- Claim C8: for every discovered year `y` and current calendar year `Y`, the
orchestrator's year filter omits `y` whenever `y > Y`; with the
exclude-current-year flag set it also omits `y = Y`; without the flag, a
discovered `y = Y` is retained. -/
theorem c8_year_filtering (Y : Nat) (ex : Bool) (links : List (Nat × String))
    (y : Nat) (u : String) :
    (y > Y → (y, u) ∉ filterYears Y ex links) ∧
    (ex = true → y = Y → (y, u) ∉ filterYears Y ex links) ∧
    (ex = false → y = Y → (y, u) ∈ links → (y, u) ∈ filterYears Y ex links) := by
  refine ⟨?_, ?_, ?_⟩
  · intro hy hmem
    rw [filterYears, List.mem_filter] at hmem
    have h2 := hmem.2
    rw [if_pos hy] at h2
    exact Bool.false_ne_true h2
  · intro hex hyY hmem
    subst hex
    subst hyY
    rw [filterYears, List.mem_filter] at hmem
    have h2 := hmem.2
    simp at h2
  · intro hex hyY hmem
    subst hex
    subst hyY
    rw [filterYears, List.mem_filter]
    refine ⟨hmem, ?_⟩
    simp

/-- Claim C8, witness: concrete filtering with current year 2025. -/
theorem c8_year_filtering_witness :
    ((2026 : Nat), "f") ∉ filterYears 2025 false [(2024, "a"), (2025, "b"), (2026, "f")] ∧
      ((2025 : Nat), "b") ∈ filterYears 2025 false [(2024, "a"), (2025, "b"), (2026, "f")] :=
  ⟨(c8_year_filtering 2025 false [(2024, "a"), (2025, "b"), (2026, "f")] 2026 "f").1 (by decide),
   (c8_year_filtering 2025 false [(2024, "a"), (2025, "b"), (2026, "f")] 2025 "b").2.2 rfl rfl
     (by decide)⟩

lemma matchesRace_imp_pref (txt : String) (h : matchesRace txt = true) :
    racePrefCI txt = true := by
  unfold matchesRace at h
  unfold racePrefCI
  generalize txt.data = l at h ⊢
  rcases l with _ | ⟨c1, _ | ⟨c2, _ | ⟨c3, _ | ⟨c4, rest⟩⟩⟩⟩ <;> simp_all

lemma findRaceHeading_none (l : List Node)
    (h : ∀ n ∈ l, is_heading_div n = true → racePrefCI (heading_text_from_div n) = false) :
    findRaceHeading l = none := by
  induction l with
  | nil => rfl
  | cons n rest ih =>
    have hcond : (is_heading_div n && matchesRace (heading_text_from_div n)) = false := by
      by_cases hh : is_heading_div n = true
      · cases hmr : matchesRace (heading_text_from_div n) with
        | false => simp [hh, hmr]
        | true =>
          have hp := matchesRace_imp_pref _ hmr
          have hnp := h n (List.mem_cons_self n rest) hh
          rw [hp] at hnp
          exact absurd hnp (by simp)
      · simp [Bool.eq_false_iff.mpr hh]
    rw [findRaceHeading, hcond]
    exact ih (fun m hm => h m (List.mem_cons_of_mem n hm))

lemma captureLoop_eq (L : Nat) (l : List Node) :
    captureLoop L l =
      ((l.takeWhile (fun n => !(is_heading_div n && level_of_heading_div n == some L))).map render,
       ((l.takeWhile (fun n => !(is_heading_div n && level_of_heading_div n == some L))).filter
          (fun n => n.tagName == some "p")).length) := by
  induction l with
  | nil => rfl
  | cons n rest ih =>
    simp only [captureLoop, List.takeWhile_cons]
    cases hc : (is_heading_div n && level_of_heading_div n == some L) with
    | true => simp
    | false =>
      simp only [Bool.not_false, if_true, ih, List.map_cons, List.filter_cons, Prod.mk.injEq]
      cases hp : (n.tagName == some "p") <;> simp

/-- Claim C1: once `extract_race_section_after` matches a `Race` heading of
fence level `L`, the captured fragment is exactly the renders, in order, of the
subsequent element children up to (and excluding) the first later heading
boundary of level exactly `L`; a heading boundary of the other level does not
stop the scan and is captured like any other node, since only
`level = some L` terminates the `takeWhile`. -/
theorem c1_section_capture_fence (main_div : Node) (start_after : Option Node) (hd : Node)
    (rest : List Node) (L : Nat)
    (hfind : findRaceHeading (raceScanChildren main_div start_after) = some (hd, rest))
    (hlvl : level_of_heading_div hd = some L) :
    extract_race_section_after main_div start_after =
      (pyJoin "\n\n" ((rest.takeWhile
          (fun n => !(is_heading_div n && level_of_heading_div n == some L))).map render),
       ((rest.takeWhile
          (fun n => !(is_heading_div n && level_of_heading_div n == some L))).filter
          (fun n => n.tagName == some "p")).length) := by
  simp [extract_race_section_after, hfind, hlvl, captureLoop_eq]

/-- Claim C1, witness: a level-2 `Race` heading followed by a level-3
sub-heading, more content and a terminating level-2 heading; the capture
includes the level-3 heading and its content and stops before the level-2
terminator. -/
theorem c1_section_capture_fence_witness :
    findRaceHeading (raceScanChildren exC1Main (some (mkH2 "Background"))) =
        some (mkH2 "Race",
          [mkP "First racing paragraph.", mkH3 "Start", mkP "Start details.",
           mkH2 "Reactions", mkP "After."]) ∧
      level_of_heading_div (mkH2 "Race") = some 2 ∧
      extract_race_section_after exC1Main (some (mkH2 "Background")) =
        (render (mkP "First racing paragraph.") ++ "\n\n" ++ render (mkH3 "Start") ++ "\n\n" ++
          render (mkP "Start details."), 2) :=
  ⟨by decide, by decide,
   by
    have h := c1_section_capture_fence exC1Main (some (mkH2 "Background")) (mkH2 "Race")
      [mkP "First racing paragraph.", mkH3 "Start", mkP "Start details.",
       mkH2 "Reactions", mkP "After."] 2 (by decide) (by decide)
    rw [h]
    decide⟩

/-- Claim C3: when no heading boundary at or after the start position has text
matching the literal prefix `Race` case-insensitively, the race-section
extraction returns an empty fragment and zero count, and the page summary then
consists of the (stripped) lead fragment alone — the lead computed by
`extract_opening_paragraphs` is untouched by the failed section search. -/
theorem c3_no_race_heading (main_div : Node) (start_after : Option Node)
    (h : ∀ n ∈ raceScanChildren main_div start_after,
        is_heading_div n = true → racePrefCI (heading_text_from_div n) = false) :
    extract_race_section_after main_div start_after = ("", 0) ∧
      (∀ doc, find_main_content_div doc = some main_div →
        pyFalsyMainDiv (some main_div) = false →
        start_after = (extract_opening_paragraphs main_div).2.2 →
        (extract_page_summary doc).race_summary = pyStrip (extract_opening_paragraphs main_div).1) := by
  have hnone : findRaceHeading (raceScanChildren main_div start_after) = none :=
    findRaceHeading_none _ h
  have hmain : extract_race_section_after main_div start_after = ("", 0) := by
    simp [extract_race_section_after, hnone]
  refine ⟨hmain, ?_⟩
  intro doc hfind hfal hstart
  simp only [extract_page_summary, hfind, hfal, Bool.false_eq_true, if_false]
  rw [← hstart, hmain]
  have hre : (!(pyStrip "").isEmpty) = false := rfl
  rw [hre]
  simp only [Bool.false_eq_true, if_false, List.append_nil]
  cases he : (pyStrip (extract_opening_paragraphs main_div).1).isEmpty with
  | false => simp [pyJoin]
  | true =>
    rw [(String.isEmpty_iff _).mp he]
    simp [pyJoin]

/-- Claim C3, witness: a region whose headings are `Background` and
`Reactions` only yields an empty race section while the lead paragraph
survives intact in the page summary. -/
theorem c3_no_race_heading_witness :
    extract_race_section_after exC3Main (extract_opening_paragraphs exC3Main).2.2 = ("", 0) ∧
      (extract_page_summary exC3Doc).race_summary =
        pyStrip (extract_opening_paragraphs exC3Main).1 ∧
      (extract_page_summary exC3Doc).race_summary = "<p>Lead.</p>" :=
  ⟨(c3_no_race_heading exC3Main (extract_opening_paragraphs exC3Main).2.2 (by decide)).1,
   (c3_no_race_heading exC3Main (extract_opening_paragraphs exC3Main).2.2 (by decide)).2
     exC3Doc rfl rfl rfl,
   by decide⟩

lemma firstDatetimeMatch_eq (l : List Node) :
    firstDatetimeMatch l =
      (l.filterMap (fun n => match n.getAttr "datetime" with
        | some dt => if !dt.isEmpty && isoRe dt then some dt else none
        | none => none)).head? := by
  induction l with
  | nil => rfl
  | cons n rest ih =>
    simp only [firstDatetimeMatch, List.filterMap_cons]
    cases hdt : n.getAttr "datetime" with
    | none => exact ih
    | some dt =>
      by_cases hok : (!dt.isEmpty && isoRe dt) = true
      · simp [hok]
      · simp [Bool.eq_false_iff.mpr hok, ih]

lemma firstTitleMatch_eq (l : List Node) :
    firstTitleMatch l =
      (l.filterMap (fun n => if isoRe ((n.getAttr "title").getD "")
          then some ((n.getAttr "title").getD "") else none)).head? := by
  induction l with
  | nil => rfl
  | cons n rest ih =>
    simp only [firstTitleMatch, List.filterMap_cons]
    cases hok : isoRe ((n.getAttr "title").getD "") with
    | true => simp [hok]
    | false => simpa [hok] using ih

/-- Claim C5, counterexample: a `time` element that carries a machine-readable
`datetime` date but no `class` attribute (and no `title` anywhere) is not
found — `extract_iso_date` returns `none` where the claim requires the date,
because `find_all(["time", "span"], attrs=True)` restricts the datetime pass
to `time`/`span` elements carrying a `class` attribute. -/
theorem c5_iso_date_counterexample :
    extract_iso_date exC5Doc = none ∧ claimIsoDate exC5Doc = some "2015-11-01" :=
  ⟨rfl, rfl⟩

/-- Claim C5 (amended): `extract_iso_date` searches, in document order, the
`time`/`span` elements that carry a `class` attribute for a `datetime`
attribute matching the strict date pattern; failing that, any element
carrying a `title` attribute matching the same pattern; within each pass the
first match in document order is returned, and `none` when no element
matches. -/
theorem c5_iso_date_amended (doc : Node) : extract_iso_date doc = amendedIsoDate doc := by
  rw [extract_iso_date, amendedIsoDate, firstDatetimeMatch_eq, firstTitleMatch_eq]

lemma daysInMonth_le (y m : Nat) : daysInMonth y m ≤ 31 := by
  unfold daysInMonth
  split
  · split <;> omega
  · split <;> omega

lemma parseIsoDate_bounds (s : String) (y m d : Nat) (h : parseIsoDate s = some (y, m, d)) :
    1 ≤ y ∧ 1 ≤ m ∧ m ≤ 12 ∧ 1 ≤ d ∧ d ≤ 31 := by
  simp only [parseIsoDate] at h
  split at h
  · split at h
    · split at h
      · rename_i hbounds
        simp only [Option.some.injEq, Prod.mk.injEq] at h
        obtain ⟨hy, hm, hd⟩ := h
        simp only [Bool.and_eq_true, decide_eq_true_eq] at hbounds
        rw [hy, hm, hd] at hbounds
        obtain ⟨⟨⟨⟨h1, h2⟩, h3⟩, h4⟩, h5⟩ := hbounds
        have h6 := daysInMonth_le y m
        exact ⟨h1, h2, h3, h4, by omega⟩
      · exact absurd h (by simp)
    · exact absurd h (by simp)
  · exact absurd h (by simp)

lemma prettyDate_of_parse_some (s : String) (y m d : Nat)
    (h : parseIsoDate s = some (y, m, d)) :
    prettyDate s = some (monthName m ++ " " ++ Nat.repr d ++ ", " ++ Nat.repr y) := by
  rw [prettyDate, h]
  rfl

lemma prettyDate_of_parse_none (s : String) (h : parseIsoDate s = none) :
    prettyDate s = none := by
  rw [prettyDate, h]
  rfl

lemma repr_no_leading_zero (d : Nat) (h1 : 1 ≤ d) (h2 : d ≤ 31) :
    (Nat.repr d).data.head? ≠ some '0' := by
  interval_cases d <;> decide

/-- Claim C6: on a page whose main region is found, the date field equals the
pretty-printing of the extracted ISO date: null when no date was extracted or
when (calendar) conversion fails, and otherwise the long form
`Month D, Year` whose day has no leading zero. All functions involved are
total, so date extraction never raises on malformed or missing dates. -/
theorem c6_pretty_date (doc : Node)
    (hm : pyFalsyMainDiv (find_main_content_div doc) = false) :
    (extract_page_summary doc).date = (extract_iso_date doc).bind prettyDate ∧
      (∀ s, extract_iso_date doc = some s → parseIsoDate s = none →
        (extract_page_summary doc).date = none) ∧
      (∀ s y m d, extract_iso_date doc = some s → parseIsoDate s = some (y, m, d) →
        (extract_page_summary doc).date =
            some (monthName m ++ " " ++ Nat.repr d ++ ", " ++ Nat.repr y) ∧
          (Nat.repr d).data.head? ≠ some '0') := by
  have hbind : (extract_page_summary doc).date = (extract_iso_date doc).bind prettyDate := by
    cases hmain : find_main_content_div doc with
    | none =>
      rw [hmain] at hm
      exact absurd hm (by simp [pyFalsyMainDiv])
    | some mdiv =>
      rw [hmain] at hm
      simp only [extract_page_summary, hmain, hm, Bool.false_eq_true, if_false]
      cases hiso : extract_iso_date doc <;> simp [Option.bind]
  refine ⟨hbind, ?_, ?_⟩
  · intro s hs hp
    rw [hbind, hs]
    simp [Option.bind, prettyDate_of_parse_none s hp]
  · intro s y m d hs hp
    obtain ⟨hy1, hm1, hm12, hd1, hd31⟩ := parseIsoDate_bounds s y m d hp
    refine ⟨?_, repr_no_leading_zero d hd1 hd31⟩
    rw [hbind, hs]
    simp [Option.bind, prettyDate_of_parse_some s y m d hp]

/-- Claim C6, witness: a page carrying `datetime="2015-11-01"` on a classed
`span`; the summary's date is `November 1, 2015` (no leading zero). -/
theorem c6_pretty_date_witness :
    pyFalsyMainDiv (find_main_content_div exC6Doc) = false ∧
      extract_iso_date exC6Doc = some "2015-11-01" ∧
      parseIsoDate "2015-11-01" = some (2015, 11, 1) ∧
      (extract_page_summary exC6Doc).date = some "November 1, 2015" ∧
      (Nat.repr 1).data.head? ≠ some '0' := by
  refine ⟨rfl, rfl, by decide, ?_, by decide⟩
  have h := ((c6_pretty_date exC6Doc rfl).2.2 "2015-11-01" 2015 11 1 rfl (by decide)).1
  rw [h]
  decide

lemma isLeadStopDiv_eq_isH2Boundary (n : Node) : isLeadStopDiv n = isH2Boundary n := by
  cases n with
  | text s => rfl
  | elem t cls attrs ch =>
    by_cases h2 : joinedClasses (.elem t cls attrs ch) = H2_DIV_CLASS
    · have hsome : cls.isSome = true := by
        cases cls with
        | none =>
          exfalso
          revert h2
          simp [joinedClasses, Node.classAttrOf, pyJoin, H2_DIV_CLASS]
        | some l => rfl
      simp [isLeadStopDiv, isH2Boundary, is_heading_div, level_of_heading_div, h2, hsome,
        Node.tagName, Node.classAttrOf]
    · by_cases h3 : joinedClasses (.elem t cls attrs ch) = H3_DIV_CLASS
      · simp [isLeadStopDiv, isH2Boundary, is_heading_div, level_of_heading_div, h2, h3,
          Node.tagName, H2_DIV_CLASS, H3_DIV_CLASS]
      · simp [isLeadStopDiv, isH2Boundary, is_heading_div, level_of_heading_div, h2, h3,
          Node.tagName]

lemma extract_opening_paragraphs_aux_eq (l : List Node) :
    extract_opening_paragraphs_aux l =
      (((l.takeWhile (fun n => !isLeadStopDiv n)).filter
          (fun n => n.tagName == some "p" && pyFalsyClass n.classAttrOf)).map render,
       (((l.takeWhile (fun n => !isLeadStopDiv n)).filter
          (fun n => n.tagName == some "p" && pyFalsyClass n.classAttrOf)).map render).length,
       l.find? isLeadStopDiv) := by
  induction l with
  | nil => rfl
  | cons n rest ih =>
    cases n with
    | text s =>
      have hstop : isLeadStopDiv (.text s) = false := rfl
      simp [extract_opening_paragraphs_aux, List.takeWhile_cons, List.filter_cons,
        List.find?_cons, hstop, ih, Node.tagName]
    | elem t cls attrs ch =>
      by_cases hstop : isLeadStopDiv (.elem t cls attrs ch) = true
      · simp [extract_opening_paragraphs_aux, hstop, List.takeWhile_cons, List.find?_cons]
      · have hstop' : isLeadStopDiv (.elem t cls attrs ch) = false := Bool.eq_false_iff.mpr hstop
        by_cases hcol : (t == "p" && pyFalsyClass cls) = true
        · simp [extract_opening_paragraphs_aux, hstop', List.takeWhile_cons, List.filter_cons,
            List.find?_cons, hcol, ih, Node.tagName, Node.classAttrOf]
        · have hcol' : (t == "p" && pyFalsyClass cls) = false := Bool.eq_false_iff.mpr hcol
          simp [extract_opening_paragraphs_aux, hstop', List.takeWhile_cons, List.filter_cons,
            List.find?_cons, hcol', ih, Node.tagName, Node.classAttrOf]

/-- Claim C2, counterexample: a paragraph with a present-but-empty class
attribute (`<p class="">`) is collected by `extract_opening_paragraphs`, so
the returned lead is not "exactly the paragraph children with no class
attribute" and a paragraph carrying a class attribute is included. -/
theorem c2_lead_extraction_counterexample :
    (extract_opening_paragraphs exC2Main).1 = "<p class=\"\">Hi</p>" ∧
      (.elem "p" (some []) [] [.text "Hi"] : Node).classAttrOf.isSome = true ∧
      claimC2Lead exC2Main = "" ∧
      (extract_opening_paragraphs exC2Main).1 ≠ claimC2Lead exC2Main := by
  refine ⟨rfl, rfl, rfl, ?_⟩
  decide

/-- Claim C2 (amended): for every main region containing a level-2 heading
boundary among its direct children, `extract_opening_paragraphs` returns
exactly the paragraph-tag element children whose class attribute is absent
**or empty** that precede the first level-2 boundary, serialized in original
document order (a paragraph carrying a non-empty class attribute is never
included), and it returns that first boundary node without consuming it into
the lead fragment. -/
theorem c2_lead_extraction_amended (main_div : Node)
    (hb : ∃ n ∈ main_div.childrenOf, isH2Boundary n = true) :
    extract_opening_paragraphs main_div =
      (pyJoin "\n\n" (((main_div.childrenOf.takeWhile (fun n => !isH2Boundary n)).filter
          (fun n => n.tagName == some "p" && pyFalsyClass n.classAttrOf)).map render),
       (((main_div.childrenOf.takeWhile (fun n => !isH2Boundary n)).filter
          (fun n => n.tagName == some "p" && pyFalsyClass n.classAttrOf)).map render).length,
       main_div.childrenOf.find? isH2Boundary) ∧
      (main_div.childrenOf.find? isH2Boundary).isSome = true := by
  have hfun : isLeadStopDiv = isH2Boundary := funext isLeadStopDiv_eq_isH2Boundary
  constructor
  · rw [extract_opening_paragraphs, extract_opening_paragraphs_aux_eq, hfun]
  · rw [List.find?_isSome]
    obtain ⟨n, hn, hb2⟩ := hb
    exact ⟨n, hn, hb2⟩

/-- Claim C2 (amended), witness: a region whose first level-2 boundary is the
`Background` heading; the single unclassed lead paragraph before it is
returned and the boundary node is reported unconsumed. -/
theorem c2_lead_extraction_amended_witness :
    (∃ n ∈ exC1Main.childrenOf, isH2Boundary n = true) ∧
      extract_opening_paragraphs exC1Main = ("<p>Lead.</p>", 1, some (mkH2 "Background")) :=
  ⟨by decide, by
    rw [(c2_lead_extraction_amended exC1Main (by decide)).1]
    decide⟩

/-- Claim C10: a paragraph child whose class attribute is present but holds no
tokens is treated by the lead scan exactly like a paragraph with no class
attribute — it is collected (and counted) — while a paragraph with a
non-empty class value is skipped. -/
theorem c10_empty_class_paragraph (a : List (String × String)) (ch rest : List Node)
    (c0 : String) (cs : List String) :
    extract_opening_paragraphs_aux (.elem "p" (some []) a ch :: rest) =
      (render (.elem "p" (some []) a ch) :: (extract_opening_paragraphs_aux rest).1,
       (extract_opening_paragraphs_aux rest).2.1 + 1,
       (extract_opening_paragraphs_aux rest).2.2) ∧
    extract_opening_paragraphs_aux (.elem "p" none a ch :: rest) =
      (render (.elem "p" none a ch) :: (extract_opening_paragraphs_aux rest).1,
       (extract_opening_paragraphs_aux rest).2.1 + 1,
       (extract_opening_paragraphs_aux rest).2.2) ∧
    extract_opening_paragraphs_aux (.elem "p" (some (c0 :: cs)) a ch :: rest) =
      extract_opening_paragraphs_aux rest := by
  refine ⟨?_, ?_, ?_⟩ <;>
    simp [extract_opening_paragraphs_aux, isLeadStopDiv_p, pyFalsyClass]

lemma mem_of_mem_takeWhileB {α : Type} (p : α → Bool) (l : List α) (a : α)
    (h : a ∈ l.takeWhile p) : a ∈ l := by
  induction l with
  | nil => simp at h
  | cons x xs ih =>
    rw [List.takeWhile_cons] at h
    by_cases hp : p x = true
    · rw [if_pos hp] at h
      rcases List.mem_cons.mp h with h | h
      · exact h ▸ List.mem_cons_self x xs
      · exact List.mem_cons_of_mem x (ih h)
    · rw [if_neg hp] at h
      simp at h

lemma string_ext (s t : String) (h : s.data = t.data) : s = t := by
  cases s
  cases t
  exact congrArg String.mk h

lemma isEmpty_false_of_head (s : String) (c : Char) (h : s.data.head? = some c) :
    s.isEmpty = false := by
  refine Bool.eq_false_iff.mpr (fun he => ?_)
  rw [(String.isEmpty_iff s).mp he] at h
  simp at h

lemma render_elem_head_last (t : String) (cls : Option (List String))
    (attrs : List (String × String)) (ch : List Node) :
    (render (.elem t cls attrs ch)).data.head? = some '<' ∧
      (render (.elem t cls attrs ch)).data.getLast? = some '>' := by
  constructor
  · simp [render, String.data_append, show ("<" : String).data = ['<'] from rfl]
  · show ("<" ++ t ++ renderAttrs cls attrs ++ ">" ++ renderList ch ++ "</" ++ t ++ ">").data.getLast? = some '>'
    rw [String.data_append, show (">" : String).data = ['>'] from rfl, List.getLast?_append]
    simp

lemma render_head_last_of_elem (n : Node) (h : n.isElem = true) :
    (render n).data.head? = some '<' ∧ (render n).data.getLast? = some '>' := by
  cases n with
  | text s => simp [Node.isElem] at h
  | elem t cls attrs ch => exact render_elem_head_last t cls attrs ch

lemma isElem_of_tagName_p (n : Node) (h : (n.tagName == some "p") = true) :
    n.isElem = true := by
  cases n with
  | text s => simp [Node.tagName] at h
  | elem t cls attrs ch => rfl

lemma pyJoin_head_last (x : String) (parts : List String)
    (h : ∀ s ∈ x :: parts, s.data.head? = some '<' ∧ s.data.getLast? = some '>') :
    (pyJoin "\n\n" (x :: parts)).data.head? = some '<' ∧
      (pyJoin "\n\n" (x :: parts)).data.getLast? = some '>' := by
  induction parts generalizing x with
  | nil => exact h x (List.mem_cons_self x [])
  | cons y rest ih =>
    have hx := h x (List.mem_cons_self x _)
    have hrest := ih y (fun s hs => h s (List.mem_cons_of_mem x hs))
    constructor
    · show ((x ++ "\n\n") ++ pyJoin "\n\n" (y :: rest)).data.head? = some '<'
      rw [String.data_append, String.data_append]
      rcases hd : x.data with _ | ⟨c, cs⟩
      · rw [hd] at hx
        simp at hx
      · rw [hd] at hx
        simp only [List.head?_cons, Option.some.injEq] at hx
        simp [hx]
    · show ((x ++ "\n\n") ++ pyJoin "\n\n" (y :: rest)).data.getLast? = some '>'
      rw [String.data_append, List.getLast?_append, hrest.2]
      simp

lemma goodFrag_pyJoin (parts : List String)
    (h : ∀ s ∈ parts, s.data.head? = some '<' ∧ s.data.getLast? = some '>') :
    goodFrag (pyJoin "\n\n" parts) := by
  cases parts with
  | nil => exact Or.inl rfl
  | cons x rest => exact Or.inr (pyJoin_head_last x rest h)

lemma dropWhile_id_of_head (l : List Char) (c : Char) (hh : l.head? = some c)
    (hc : pyIsSpace c = false) : l.dropWhile pyIsSpace = l := by
  cases l with
  | nil => simp at hh
  | cons a t =>
    simp only [List.head?_cons, Option.some.injEq] at hh
    rw [List.dropWhile_cons, hh, hc]
    simp

lemma pyStrip_eq_of_goodFrag (s : String) (h : goodFrag s) : pyStrip s = s := by
  rcases h with h | ⟨hh, hl⟩
  · rw [h]
    rfl
  · apply string_ext
    show pyStripChars s.data = s.data
    unfold pyStripChars
    rw [dropWhile_id_of_head s.data '<' hh (by decide)]
    rw [dropWhile_id_of_head s.data.reverse '>' (by rw [List.head?_reverse]; exact hl) (by decide)]
    exact List.reverse_reverse s.data

lemma goodFrag_isEmpty_strip (s : String) (h : goodFrag s) :
    (pyStrip s).isEmpty = s.isEmpty := by
  rw [pyStrip_eq_of_goodFrag s h]

lemma goodFrag_lead (main_div : Node) : goodFrag (extract_opening_paragraphs main_div).1 := by
  rw [extract_opening_paragraphs, extract_opening_paragraphs_aux_eq]
  apply goodFrag_pyJoin
  intro s hs
  rcases List.mem_map.mp hs with ⟨n, hn, rfl⟩
  have hp := (List.mem_filter.mp hn).2
  exact render_head_last_of_elem n (isElem_of_tagName_p n ((Bool.and_eq_true _ _).mp hp).1)

lemma raceScanChildren_elems (main_div : Node) (start_after : Option Node) (n : Node)
    (h : n ∈ raceScanChildren main_div start_after) : n.isElem = true := by
  unfold raceScanChildren at h
  rcases start_after with _ | t
  · exact (List.mem_filter.mp h).2
  · dsimp only at h
    rcases hidx : List.findIdx? (fun c => c == t) (List.filter Node.isElem main_div.childrenOf)
      with _ | i
    · rw [hidx] at h
      exact (List.mem_filter.mp h).2
    · rw [hidx] at h
      exact (List.mem_filter.mp (List.mem_of_mem_drop h)).2

lemma findRaceHeading_rest_mem (l : List Node) (hd : Node) (rest : List Node)
    (hf : findRaceHeading l = some (hd, rest)) (n : Node) (hn : n ∈ rest) : n ∈ l := by
  induction l with
  | nil => simp [findRaceHeading] at hf
  | cons x xs ih =>
    rw [findRaceHeading] at hf
    by_cases hc : (is_heading_div x && matchesRace (heading_text_from_div x)) = true
    · rw [if_pos hc] at hf
      simp only [Option.some.injEq, Prod.mk.injEq] at hf
      exact List.mem_cons_of_mem x (hf.2 ▸ hn)
    · rw [if_neg hc] at hf
      exact List.mem_cons_of_mem x (ih hf)

lemma goodFrag_race (main_div : Node) (start_after : Option Node) :
    goodFrag (extract_race_section_after main_div start_after).1 := by
  rcases hf : findRaceHeading (raceScanChildren main_div start_after) with _ | ⟨hd, rest⟩
  · rw [extract_race_section_after, hf]
    exact Or.inl rfl
  · rw [extract_race_section_after, hf]
    rcases hl : level_of_heading_div hd with _ | lvl
    · simp only [hl]
      exact Or.inl rfl
    · simp only [hl, captureLoop_eq]
      apply goodFrag_pyJoin
      intro s hs
      rcases List.mem_map.mp hs with ⟨n, hn, rfl⟩
      have h1 : n ∈ raceScanChildren main_div start_after :=
        findRaceHeading_rest_mem _ hd rest hf n (mem_of_mem_takeWhileB _ rest n hn)
      exact render_head_last_of_elem n (raceScanChildren_elems main_div start_after n h1)

lemma buildLinks_eq_linkFold (l : List Node) (acc : List (Nat × String)) :
    buildLinks l acc = linkFold (l.filterMap anchorYearLink) acc := by
  induction l generalizing acc with
  | nil => rfl
  | cons a rest ih =>
    simp only [buildLinks, List.filterMap_cons]
    cases h : anchorYearLink a with
    | none => exact ih acc
    | some yu => exact ih (setdefault acc yu.1 yu.2)

lemma mem_linkFold (qs acc : List (Nat × String)) (y : Nat) (u : String) :
    (y, u) ∈ linkFold qs acc ↔
      (y, u) ∈ acc ∨
        (hasYear acc y = false ∧ qs.find? (fun p => p.1 == y) = some (y, u)) := by
  induction qs generalizing acc with
  | nil => simp [linkFold]
  | cons z rest ih =>
    rw [linkFold, ih]
    by_cases hz : hasYear acc z.1 = true
    · rw [setdefault, if_pos hz]
      by_cases hy : z.1 = y
      · have hyy : hasYear acc y = true := hy ▸ hz
        simp [hyy]
      · rw [List.find?_cons_of_neg rest (by simp [hy])]
    · have hz' : hasYear acc z.1 = false := Bool.eq_false_iff.mpr hz
      rw [setdefault, hz']
      simp only [Bool.false_eq_true, if_false]
      by_cases hy : z.1 = y
      · subst hy
        have h1 : hasYear (acc ++ [(z.1, z.2)]) z.1 = true := by
          simp [hasYear, List.any_append]
        have h2 : (z :: rest).find? (fun p => p.1 == z.1) = some z :=
          List.find?_cons_of_pos rest (by simp)
        rw [h1, h2]
        simp [List.mem_append, hz', Prod.ext_iff, eq_comm]
      · have happ : hasYear (acc ++ [(z.1, z.2)]) y = hasYear acc y := by
          simp [hasYear, List.any_append, hy]
        have hyz : ¬ ((y, u) = (z.1, z.2)) := fun he => hy (by cases he; rfl)
        rw [happ, List.find?_cons_of_neg rest (by simp [hy])]
        simp [List.mem_append, hyz]

lemma linkFold_keysNodup (qs acc : List (Nat × String))
    (h : acc.Pairwise (fun p q => p.1 ≠ q.1)) :
    (linkFold qs acc).Pairwise (fun p q => p.1 ≠ q.1) := by
  induction qs generalizing acc with
  | nil => exact h
  | cons z rest ih =>
    rw [linkFold]
    apply ih
    rw [setdefault]
    by_cases hz : hasYear acc z.1 = true
    · rw [if_pos hz]
      exact h
    · have hz' : hasYear acc z.1 = false := Bool.eq_false_iff.mpr hz
      rw [hz']
      simp only [Bool.false_eq_true, if_false]
      rw [List.pairwise_append]
      refine ⟨h, List.pairwise_singleton _ _, ?_⟩
      intro a ha b hb
      rcases List.mem_singleton.mp hb with rfl
      intro heq
      apply hz
      rw [hasYear, List.any_eq_true]
      exact ⟨a, ha, by simp [heq]⟩

lemma sortedInsert_perm (p : Nat × String) (l : List (Nat × String)) :
    (sortedInsert p l).Perm (p :: l) := by
  induction l with
  | nil => exact List.Perm.refl _
  | cons q rest ih =>
    rw [sortedInsert]
    by_cases hle : p.1 ≤ q.1
    · rw [if_pos hle]
    · rw [if_neg hle]
      exact (ih.cons q).trans (List.Perm.swap p q rest)

lemma sortByYear_perm (l : List (Nat × String)) : (sortByYear l).Perm l := by
  induction l with
  | nil => exact List.Perm.refl _
  | cons p rest ih =>
    rw [sortByYear]
    exact (sortedInsert_perm p (sortByYear rest)).trans (ih.cons p)

lemma sortedInsert_sorted (p : Nat × String) (l : List (Nat × String))
    (h : l.Pairwise (fun a b => a.1 ≤ b.1)) :
    (sortedInsert p l).Pairwise (fun a b => a.1 ≤ b.1) := by
  induction l with
  | nil => simp [sortedInsert]
  | cons q rest ih =>
    rcases List.pairwise_cons.mp h with ⟨hq, hrest⟩
    rw [sortedInsert]
    by_cases hle : p.1 ≤ q.1
    · rw [if_pos hle]
      refine List.pairwise_cons.mpr ⟨?_, h⟩
      intro b hb
      rcases List.mem_cons.mp hb with rfl | hb
      · exact hle
      · exact le_trans hle (hq b hb)
    · rw [if_neg hle]
      refine List.pairwise_cons.mpr ⟨?_, ih hrest⟩
      intro b hb
      rcases List.mem_cons.mp ((sortedInsert_perm p rest).mem_iff.mp hb) with rfl | hb2
      · omega
      · exact hq b hb2

lemma sortByYear_sorted (l : List (Nat × String)) :
    (sortByYear l).Pairwise (fun a b => a.1 ≤ b.1) := by
  induction l with
  | nil => exact List.Pairwise.nil
  | cons p rest ih =>
    rw [sortByYear]
    exact sortedInsert_sorted p (sortByYear rest) ih

lemma anchorYearLink_url (a : Node) (y : Nat) (u : String)
    (h : anchorYearLink a = some (y, u)) :
    u = "https://en.wikipedia.org" ++ ((a.getAttr "href").getD "") := by
  simp only [anchorYearLink] at h
  split at h
  · exact absurd h (by simp)
  · split at h
    · exact absurd h (by simp)
    · split at h
      · exact absurd h (by simp)
      · split at h
        · exact absurd h (by simp)
        · simp only [Option.some.injEq, Prod.mk.injEq] at h
          exact h.2.symm

lemma anchorFilter_href (a : Node) (h : anchorFilter a = true) :
    strStartsWith ((a.getAttr "href").getD "") "/wiki/" = true := by
  have h2 := ((Bool.and_eq_true _ _).mp h).2
  cases hh : a.getAttr "href" with
  | none => rw [hh] at h2; simp [Option.any] at h2
  | some href => rw [hh] at h2; simpa [Option.any] using h2

/-- Claim C7: the category mapping has strictly ascending years (hence at most
one entry per year), an entry `(y, u)` is present exactly when the first
qualifying anchor for year `y` (in document order) contributes `(y, u)` —
first-wins deduplication — and every stored URL is the absolute URL built by
prefixing the site scheme+host to the anchor's relative `/wiki/` path. -/
theorem c7_category_year_links (doc : Node) :
    (parse_year_links_from_category doc).Pairwise (fun p q => p.1 < q.1) ∧
      (∀ y u, (y, u) ∈ parse_year_links_from_category doc ↔
        (((nodeDescendants doc).filter anchorFilter).filterMap anchorYearLink).find?
            (fun p => p.1 == y) = some (y, u)) ∧
      (∀ y u, (y, u) ∈ parse_year_links_from_category doc →
        ∃ hr, strStartsWith hr "/wiki/" = true ∧ u = "https://en.wikipedia.org" ++ hr) := by
  have hbuild : buildLinks ((nodeDescendants doc).filter anchorFilter) [] =
      linkFold (((nodeDescendants doc).filter anchorFilter).filterMap anchorYearLink) [] :=
    buildLinks_eq_linkFold _ []
  have hmem : ∀ y u, (y, u) ∈ parse_year_links_from_category doc ↔
      (((nodeDescendants doc).filter anchorFilter).filterMap anchorYearLink).find?
          (fun p => p.1 == y) = some (y, u) := by
    intro y u
    rw [parse_year_links_from_category, hbuild,
      (sortByYear_perm _).mem_iff, mem_linkFold]
    simp [hasYear]
  refine ⟨?_, hmem, ?_⟩
  · have hnd : (linkFold (((nodeDescendants doc).filter anchorFilter).filterMap anchorYearLink)
        []).Pairwise (fun p q => p.1 ≠ q.1) :=
      linkFold_keysNodup _ [] List.Pairwise.nil
    have hnd2 : (parse_year_links_from_category doc).Pairwise (fun p q => p.1 ≠ q.1) := by
      rw [parse_year_links_from_category, hbuild]
      exact ((sortByYear_perm _).pairwise_iff (fun hab => Ne.symm hab)).mpr hnd
    have hs : (parse_year_links_from_category doc).Pairwise (fun a b => a.1 ≤ b.1) := by
      rw [parse_year_links_from_category]
      exact sortByYear_sorted _
    exact (hs.and hnd2).imp (fun hab => lt_of_le_of_ne hab.1 hab.2)
  · intro y u hm
    have hfind := (hmem y u).mp hm
    have hmem2 := List.mem_of_find?_eq_some hfind
    rcases List.mem_filterMap.mp hmem2 with ⟨a, ha, hq⟩
    have haf : anchorFilter a = true := (List.mem_filter.mp ha).2
    exact ⟨(a.getAttr "href").getD "", anchorFilter_href a haf, anchorYearLink_url a y u hq⟩

/-- Claim C7, witness: a category page with a duplicate year-2014 anchor and a
`Talk:` anchor yields one entry per year, ascending, pointing at the first
anchor's absolute URL. -/
theorem c7_category_year_links_witness :
    parse_year_links_from_category exC7Doc =
        [(2010, "https://en.wikipedia.org/wiki/2010_Mexican_Grand_Prix"),
         (2014, "https://en.wikipedia.org/wiki/2014_Mexican_Grand_Prix")] ∧
      ((2014 : Nat), "https://en.wikipedia.org/wiki/2014_Mexican_Grand_Prix") ∈
        parse_year_links_from_category exC7Doc ∧
      (∃ hr, strStartsWith hr "/wiki/" = true ∧
        "https://en.wikipedia.org/wiki/2014_Mexican_Grand_Prix" =
          "https://en.wikipedia.org" ++ hr) :=
  ⟨by decide, by decide,
   (c7_category_year_links exC7Doc).2.2 2014
     "https://en.wikipedia.org/wiki/2014_Mexican_Grand_Prix" (by decide)⟩

/-- Claim C4: for every input document, `race_summary` is the concatenation of
the lead fragment and the race-section fragment joined by a blank-line
separator with empty parts omitted; when both fragments are empty it is the
empty string. -/
theorem c4_race_summary_invariant (doc : Node) :
    (extract_page_summary doc).race_summary = specCombine (leadFragOf doc) (raceFragOf doc) := by
  cases hmain : find_main_content_div doc with
  | none =>
    simp [extract_page_summary, hmain, pyFalsyMainDiv, leadFragOf, raceFragOf, specCombine,
      pyJoin, String.isEmpty_iff]
  | some mdiv =>
    have hclass : isMainContentDiv mdiv = true := List.find?_some hmain
    cases hfal : pyFalsyMainDiv (some mdiv) with
    | true =>
      cases mdiv with
      | text s => simp [isMainContentDiv, Node.tagName] at hclass
      | elem t cls attrs ch =>
        have hch : ch = [] := by
          simp only [pyFalsyMainDiv, List.isEmpty_iff] at hfal
          exact hfal
        subst hch
        simp [extract_page_summary, hmain, hfal, leadFragOf, raceFragOf, specCombine,
          extract_opening_paragraphs, extract_opening_paragraphs_aux, Node.childrenOf,
          extract_race_section_after, raceScanChildren, findRaceHeading, pyJoin,
          String.isEmpty_iff]
    | false =>
      have hL := goodFrag_lead mdiv
      have hR := goodFrag_race mdiv (extract_opening_paragraphs mdiv).2.2
      simp only [extract_page_summary, hmain, hfal, Bool.false_eq_true, if_false,
        leadFragOf, raceFragOf]
      rw [pyStrip_eq_of_goodFrag _ hL, pyStrip_eq_of_goodFrag _ hR]
      cases hLe : (extract_opening_paragraphs mdiv).1.isEmpty <;>
        cases hRe : (extract_race_section_after mdiv (extract_opening_paragraphs mdiv).2.2).1.isEmpty <;>
          simp [specCombine, hLe, hRe]

end F1Scraper
